import Mathlib

/-!
Shallow embedding, in Lean 4, of the conversation-orchestration core of the
`dataAnalysis` repository, together with proofs about its behaviour.

The embedded code (faithful translations of the Python source):

* `detect_visualization_data` and its three detection rules
  (`fileRuleStep`, `inlineRuleStep`, `verbatimRuleStep`) from
  `api_server.py`, including the two regular expressions the source uses,
  executed by a small backtracking engine (`matchItems` / `refindall`) that
  mirrors Python `re` semantics (leftmost scan, greedy, backtracking), a
  fueled JSON parser `jsonLoads` mirroring `json.loads`, Python's
  `str.replace` (`pyReplaceEmpty`, which replaces every non-overlapping
  occurrence) and `str.strip` (`pyStrip`).
* the accumulation loop of `generate_response` from `api_server.py`
  (`accumulateStep`).
* the stream event classifier `stream_graph_response` from
  `scout/client.py` (`classifyChunk` / `stream_graph_response`).
* the LangGraph wiring of `scout/graph.py`: `router` and the node/edge
  structure (`nextNode`).
* the datalysis tool session from
  `scout/my_mcp/local_servers/datalysis_mcp.py`
  (`query_database`, `generate_visualization`).
* components whose deciding code lives in third-party libraries
  (LangGraph's `ToolNode` and `MemorySaver`) are modelled from the spec and
  are marked as such in their doc comments.

Strings are embedded as `List Char`; file systems, database execution and
Python `exec` are oracles passed as explicit arguments.
-/

set_option maxRecDepth 10000

/-- Convert a Lean string literal to the `List Char` representation used
throughout this development. -/
def strL (s : String) : List Char := s.toList

/-- The character class `\s` of Python regular expressions, and the
characters removed by `str.strip()` (ASCII range, which is all the source
ever meets). -/
def pySpace (c : Char) : Bool :=
  c = ' ' || c = '\t' || c = '\n' || c = '\r' || c = '\x0b' || c = '\x0c'

/-- Python `str.strip()`: drop leading and trailing whitespace. -/
def pyStrip (s : List Char) : List Char :=
  ((s.dropWhile pySpace).reverse.dropWhile pySpace).reverse

/-- Fuel-indexed worker for `pyReplaceEmpty`. -/
def pyReplaceEmptyAux (pat : List Char) : Nat → List Char → List Char
  | 0, s => s
  | _ + 1, [] => []
  | fuel + 1, c :: cs =>
      if pat ≠ [] ∧ pat.isPrefixOf (c :: cs) then
        pyReplaceEmptyAux pat fuel ((c :: cs).drop pat.length)
      else
        c :: pyReplaceEmptyAux pat fuel cs

/-- Python `s.replace(pat, "")`: remove every non-overlapping occurrence of
`pat` from `s`, scanning left to right. -/
def pyReplaceEmpty (s pat : List Char) : List Char :=
  pyReplaceEmptyAux pat s.length s

/-- Python's substring test `pat in s`. -/
def pyContains (pat : List Char) : List Char → Bool
  | [] => pat.isEmpty
  | c :: cs => pat.isPrefixOf (c :: cs) || pyContains pat cs

/-- One element of the linear regular expressions used by the source: a
literal string, or a greedy repetition of a character class with a minimum
repetition count (`[...]*` has minimum 0, `[...]+` has minimum 1). Both
patterns in `api_server.py` consist solely of such elements. -/
inductive RItem where
  | lit (cs : List Char)
  | rep (p : Char → Bool) (mn : Nat)

/-- Length of the longest run of characters satisfying `p` at the head. -/
def leadCount (p : Char → Bool) (s : List Char) : Nat :=
  (s.takeWhile p).length

/-- Backtracking matcher for a list of `RItem`s anchored at the head of
`s`; returns the number of characters consumed by the match that Python's
`re` engine would produce (greedy repetitions, backtracking on failure,
first success in preference order). -/
def matchItems : List RItem → List Char → Option Nat
  | [], _ => some 0
  | RItem.lit cs :: rest, s =>
      if cs.isPrefixOf s then
        (matchItems rest (s.drop cs.length)).map (· + cs.length)
      else none
  | RItem.rep p mn :: rest, s =>
      (List.range (leadCount p s + 1)).reverse.findSome? fun k =>
        if k < mn then none
        else (matchItems rest (s.drop k)).map (· + k)

/-- Fuel-indexed worker for `refindall`: scan positions left to right,
record non-overlapping matches, mirroring `re.findall`. -/
def refindallAux (its : List RItem) : Nat → List Char → List (List Char)
  | 0, _ => []
  | _ + 1, [] =>
      match matchItems its [] with
      | some _ => [[]]
      | none => []
  | fuel + 1, c :: cs =>
      match matchItems its (c :: cs) with
      | some 0 => [] :: refindallAux its fuel cs
      | some (n + 1) =>
          ((c :: cs).take (n + 1)) :: refindallAux its fuel ((c :: cs).drop (n + 1))
      | none => refindallAux its fuel cs

/-- Python `re.findall(pattern, s)` for the linear patterns of the source:
all non-overlapping matches, scanning left to right. -/
def refindall (its : List RItem) (s : List Char) : List (List Char) :=
  refindallAux its (s.length + 1) s

/-- JSON values as produced by `json.loads` on the payloads this system
meets. Objects keep their members in source order (Python dicts preserve
insertion order); numeric literals are kept as their source text, which is
all the detection code ever inspects. -/
inductive Json where
  | null : Json
  | bool (b : Bool) : Json
  | num (lit : List Char) : Json
  | str (s : List Char) : Json
  | arr (elems : List Json) : Json
  | obj (members : List (List Char × Json)) : Json

/-- JSON whitespace accepted between tokens by `json.loads`. -/
def jsonWs (c : Char) : Bool :=
  c = ' ' || c = '\t' || c = '\n' || c = '\r'

/-- Skip JSON whitespace. -/
def skipWs (s : List Char) : List Char := s.dropWhile jsonWs

/-- Hexadecimal digit test for `\u` escapes. -/
def hexDigit (c : Char) : Bool :=
  c.isDigit || ('a' ≤ c && c ≤ 'f') || ('A' ≤ c && c ≤ 'F')

/-- Numeric value of a hexadecimal digit. -/
def hexVal (c : Char) : Nat :=
  if c.isDigit then c.toNat - 48
  else if c ≤ 'F' then c.toNat - 55
  else c.toNat - 87

/-- Decode one character of a JSON string body (after the opening quote):
returns the decoded character and the rest, handling the escape sequences
`json.loads` accepts. Fails on a bare quote (the caller handles it), an
unterminated escape, or end of input. -/
def parseStringChar : List Char → Option (Char × List Char)
  | [] => none
  | '\\' :: rest =>
      match rest with
      | '"' :: r => some ('"', r)
      | '\\' :: r => some ('\\', r)
      | '/' :: r => some ('/', r)
      | 'b' :: r => some ('\x08', r)
      | 'f' :: r => some ('\x0c', r)
      | 'n' :: r => some ('\n', r)
      | 'r' :: r => some ('\r', r)
      | 't' :: r => some ('\t', r)
      | 'u' :: a :: b :: c :: d :: r =>
          if hexDigit a && hexDigit b && hexDigit c && hexDigit d then
            some (Char.ofNat
              (hexVal a * 4096 + hexVal b * 256 + hexVal c * 16 + hexVal d), r)
          else none
      | _ => none
  | '"' :: _ => none
  | c :: rest => some (c, rest)

/-- Parse a JSON string body up to and including the closing quote. -/
def parseStringBody : Nat → List Char → Option (List Char × List Char)
  | 0, _ => none
  | _ + 1, '"' :: rest => some ([], rest)
  | fuel + 1, s =>
      match parseStringChar s with
      | none => none
      | some (c, rest) =>
          match parseStringBody fuel rest with
          | none => none
          | some (body, rest2) => some (c :: body, rest2)

/-- Characters that may occur in a JSON numeric literal. -/
def numChar (c : Char) : Bool :=
  c.isDigit || c = '-' || c = '+' || c = '.' || c = 'e' || c = 'E'

/-- Parse a JSON numeric literal, keeping its source text. Accepts the
shapes `json.loads` accepts on the inputs this system meets. -/
def parseNumber (s : List Char) : Option (Json × List Char) :=
  let lit := s.takeWhile numChar
  if lit = [] then none
  else if lit.any Char.isDigit then some (Json.num lit, s.drop lit.length)
  else none

mutual

/-- Parse one JSON value (after any leading whitespace is consumed by the
caller of `jsonLoads`; internally whitespace is skipped where `json.loads`
skips it). -/
def parseValue : Nat → List Char → Option (Json × List Char)
  | 0, _ => none
  | fuel + 1, s =>
      match skipWs s with
      | [] => none
      | c :: rest =>
          if c = 'n' then
            if (strL "ull").isPrefixOf rest then some (Json.null, rest.drop 3) else none
          else if c = 't' then
            if (strL "rue").isPrefixOf rest then some (Json.bool true, rest.drop 3) else none
          else if c = 'f' then
            if (strL "alse").isPrefixOf rest then some (Json.bool false, rest.drop 4) else none
          else if c = '"' then
            match parseStringBody (rest.length + 1) rest with
            | none => none
            | some (body, rest2) => some (Json.str body, rest2)
          else if c = '[' then
            match skipWs rest with
            | ']' :: rest2 => some (Json.arr [], rest2)
            | _ =>
                match parseArrayItems fuel rest with
                | none => none
                | some (elems, rest2) => some (Json.arr elems, rest2)
          else if c = '\x7b' then
            match skipWs rest with
            | '\x7d' :: rest2 => some (Json.obj [], rest2)
            | _ =>
                match parseObjMembers fuel rest with
                | none => none
                | some (mems, rest2) => some (Json.obj mems, rest2)
          else
            parseNumber (c :: rest)

/-- Parse the items of a non-empty JSON array, up to and including the
closing bracket. -/
def parseArrayItems : Nat → List Char → Option (List Json × List Char)
  | 0, _ => none
  | fuel + 1, s =>
      match parseValue fuel s with
      | none => none
      | some (v, rest) =>
          match skipWs rest with
          | ',' :: rest2 =>
              match parseArrayItems fuel rest2 with
              | none => none
              | some (vs, rest3) => some (v :: vs, rest3)
          | ']' :: rest2 => some ([v], rest2)
          | _ => none

/-- Parse the members of a non-empty JSON object, up to and including the
closing brace. -/
def parseObjMembers : Nat → List Char → Option (List (List Char × Json) × List Char)
  | 0, _ => none
  | fuel + 1, s =>
      match skipWs s with
      | '"' :: rest =>
          match parseStringBody (rest.length + 1) rest with
          | none => none
          | some (key, rest2) =>
              match skipWs rest2 with
              | ':' :: rest3 =>
                  match parseValue fuel rest3 with
                  | none => none
                  | some (v, rest4) =>
                      match skipWs rest4 with
                      | ',' :: rest5 =>
                          match parseObjMembers fuel rest5 with
                          | none => none
                          | some (mems, rest6) => some ((key, v) :: mems, rest6)
                      | '\x7d' :: rest5 => some ([(key, v)], rest5)
                      | _ => none
              | _ => none
      | _ => none

end

/-- Python `json.loads`: parse the whole input as a single JSON value,
allowing surrounding whitespace and rejecting trailing garbage. -/
def jsonLoads (s : List Char) : Option Json :=
  match parseValue (2 * s.length + 2) s with
  | none => none
  | some (v, rest) => if skipWs rest = [] then some v else none

/-- The regular expression `output/[^\s]+\.json` of
`detect_visualization_data` (api_server.py line 34). -/
def filePatternItems : List RItem :=
  [RItem.lit (strL "output/"),
   RItem.rep (fun c => !pySpace c) 1,
   RItem.lit (strL ".json")]

/-- The character class `[^{}]` of the inline pattern. -/
def notBrace (c : Char) : Bool := !(c = '\x7b' || c = '\x7d')

/-- The regular expression
`\x7b[^\x7b\x7d]*"data"\s*:\s*\[[^\]]*\][^\x7b\x7d]*"layout"\s*:\s*\x7b[^\x7b\x7d]*\x7d[^\x7b\x7d]*\x7d`
of `detect_visualization_data` (api_server.py line 54), written there with
literal braces. -/
def jsonPatternItems : List RItem :=
  [RItem.lit (strL "\x7b"),
   RItem.rep notBrace 0,
   RItem.lit (strL "\"data\""),
   RItem.rep pySpace 0,
   RItem.lit (strL ":"),
   RItem.rep pySpace 0,
   RItem.lit (strL "["),
   RItem.rep (fun c => c ≠ ']') 0,
   RItem.lit (strL "]"),
   RItem.rep notBrace 0,
   RItem.lit (strL "\"layout\""),
   RItem.rep pySpace 0,
   RItem.lit (strL ":"),
   RItem.rep pySpace 0,
   RItem.lit (strL "\x7b"),
   RItem.rep notBrace 0,
   RItem.lit (strL "\x7d"),
   RItem.rep notBrace 0,
   RItem.lit (strL "\x7d")]

/-- The qualification test `isinstance(parsed, dict) and "data" in parsed
and "layout" in parsed` (api_server.py lines 43, 61, 72). -/
def vizDict : Json → Bool
  | Json.obj members =>
      members.any (fun kv => kv.1 == strL "data") &&
      members.any (fun kv => kv.1 == strL "layout")
  | _ => false

/-- A file system oracle: maps a path to the content of a readable file at
that path (`none` when `os.path.exists` is false or reading raises, both of
which make the source skip the candidate). -/
def FileSys : Type := List Char → Option (List Char)

/-- Detection rule 1 of `detect_visualization_data` (api_server.py lines
31-48): scan for `output/...json` path tokens, and for the first readable
one whose content parses to a dict with `data` and `layout` keys, return
the content with the path token removed (every occurrence, Python
`str.replace`) and stripped, together with the parsed payload. -/
def fileRuleStep (fs : FileSys) (content : List Char) : Option (List Char × Json) :=
  if pyContains (strL "output/") content && pyContains (strL ".json") content then
    (refindall filePatternItems content).findSome? fun fp =>
      match fs fp with
      | none => none
      | some fileContent =>
          match jsonLoads fileContent with
          | none => none
          | some parsed =>
              if vizDict parsed then
                some (pyStrip (pyReplaceEmpty content fp), parsed)
              else none
  else none

/-- Detection rule applied second in `detect_visualization_data`
(api_server.py lines 53-66): find substrings matching the inline pattern,
and for the first one that parses to a dict with `data` and `layout` keys,
return the content with the matched substring removed (every occurrence,
Python `str.replace`) and stripped, together with the parsed payload. -/
def inlineRuleStep (content : List Char) : Option (List Char × Json) :=
  (refindall jsonPatternItems content).findSome? fun m =>
    match jsonLoads m with
    | none => none
    | some parsed =>
        if vizDict parsed then
          some (pyStrip (pyReplaceEmpty content m), parsed)
        else none

/-- Detection rule applied third in `detect_visualization_data`
(api_server.py lines 68-75): if the stripped content starts with
`\x7b"data":` and the content contains `"layout":`, and the stripped
content parses to a dict with `data` and `layout` keys, return empty text
and the parsed payload. -/
def verbatimRuleStep (content : List Char) : Option (List Char × Json) :=
  if (strL "\x7b\"data\":").isPrefixOf (pyStrip content) &&
     pyContains (strL "\"layout\":") content then
    match jsonLoads (pyStrip content) with
    | none => none
    | some parsed => if vizDict parsed then some ([], parsed) else none
  else none

/-- The Artifact Extractor `detect_visualization_data` of api_server.py
(lines 24-80): apply the file-reference rule, then the inline-substring
rule, then the whole-buffer rule, in that order; if none fires, return the
content unchanged with no payload. -/
def detect_visualization_data (fs : FileSys) (content : List Char) :
    List Char × Option Json :=
  match fileRuleStep fs content with
  | some (cleaned, parsed) => (cleaned, some parsed)
  | none =>
      match inlineRuleStep content with
      | some (cleaned, parsed) => (cleaned, some parsed)
      | none =>
          match verbatimRuleStep content with
          | some (cleaned, parsed) => (cleaned, some parsed)
          | none => (content, none)

/-- A file system with no readable files. -/
def fsEmpty : FileSys := fun _ => none

/-- An event written to the SSE stream by `generate_response`
(api_server.py lines 168-226): a text-content record or a visualization
record. -/
inductive SrvEvent where
  | contentEv (s : List Char) : SrvEvent
  | vizEv (payload : Json) : SrvEvent

/-- The accumulation branch of `generate_response` (api_server.py lines
199-218): extend the accumulated buffer with the new chunk and run the
Artifact Extractor; on a hit, emit the cleaned text (when nonempty after
stripping) followed by the visualization, and reset the buffer; otherwise
emit the chunk as plain content and keep the extended buffer. Returns the
emitted events and the new accumulated buffer. -/
def accumulateStep (fs : FileSys) (acc chunk : List Char) :
    List SrvEvent × List Char :=
  let acc2 := acc ++ chunk
  match detect_visualization_data fs acc2 with
  | (cleaned, some viz) =>
      ((if pyStrip cleaned ≠ [] then [SrvEvent.contentEv cleaned] else []) ++
        [SrvEvent.vizEv viz], [])
  | (_, none) => ([SrvEvent.contentEv chunk], acc2)

/-- A typed stream event, one per `yield` site of `stream_graph_response`
(scout/client.py lines 31-66): the `"\n\n"` paragraph break on a
`tool_calls` finish reason, the tool-call announcement, a tool-argument
fragment, or a text fragment. -/
inductive StreamEvent where
  | turnBoundary : StreamEvent
  | toolCallStart (name : List Char) : StreamEvent
  | toolCallArg (fragment : List Char) : StreamEvent
  | text (fragment : List Char) : StreamEvent

/-- One entry of `message_chunk.tool_call_chunks`: the `name` and `args`
fields, with `[]` standing for both a missing key and an empty (falsy)
value, which the source treats alike via `.get(..., "")` and truthiness. -/
structure ToolChunkPy where
  name : List Char
  args : List Char

/-- One content block of the block-list content representation
(scout/client.py lines 55-59): a dict block tagged `text` carrying a text
field, or any other block, which the source skips. -/
inductive CBlock where
  | textBlock (t : List Char) : CBlock
  | otherBlock : CBlock

/-- The `content` attribute of a message chunk: a plain string, a list of
typed blocks, or any other value, of which the source takes `str(content)`
(scout/client.py lines 54-65). -/
inductive PyContent where
  | str (s : List Char) : PyContent
  | blocks (bs : List CBlock) : PyContent
  | other (repr : List Char) : PyContent

/-- One increment from `graph.astream`: whether it is an `AIMessageChunk`
(anything else is skipped), its `response_metadata` dict, its
`tool_call_chunks` list, and its `content`. -/
structure Chunk where
  ai : Bool
  responseMetadata : List (List Char × List Char)
  toolCallChunks : List ToolChunkPy
  content : PyContent

/-- Python `d.get(k, default)` on an association-list dict. -/
def dictGetD (d : List (List Char × List Char)) (k dflt : List Char) : List Char :=
  match d.find? (fun kv => kv.1 == k) with
  | some kv => kv.2
  | none => dflt

/-- The events yielded for the content branch of `stream_graph_response`
(scout/client.py lines 52-65): a string yields itself; a block list yields
the text of each block tagged `text`; anything else yields its textual
representation. -/
def contentEvents : PyContent → List StreamEvent
  | PyContent.str s => [StreamEvent.text s]
  | PyContent.blocks bs =>
      bs.filterMap fun b =>
        match b with
        | CBlock.textBlock t => some (StreamEvent.text t)
        | CBlock.otherBlock => none
  | PyContent.other r => [StreamEvent.text r]

/-- The events yielded by one iteration of `stream_graph_response`
(scout/client.py lines 31-66): nothing for a non-AI chunk; otherwise a
turn boundary when the finish reason is `tool_calls`, then either the
tool-call events of the first tool-call chunk (start when a name is
present, then the argument fragment when present) or the content events. -/
def classifyChunk (c : Chunk) : List StreamEvent :=
  if !c.ai then []
  else
    (if !c.responseMetadata.isEmpty &&
        dictGetD c.responseMetadata (strL "finish_reason") [] == strL "tool_calls"
     then [StreamEvent.turnBoundary] else []) ++
    match c.toolCallChunks with
    | [] => contentEvents c.content
    | tc :: _ =>
        (if !tc.name.isEmpty then [StreamEvent.toolCallStart tc.name] else []) ++
        (if !tc.args.isEmpty then [StreamEvent.toolCallArg tc.args] else [])

/-- The Stream Event Classifier `stream_graph_response` of scout/client.py
over a whole increment sequence. -/
def stream_graph_response (chunks : List Chunk) : List StreamEvent :=
  chunks.flatMap classifyChunk

/-- A message as inspected by the LangGraph `router` (scout/graph.py lines
80-84): only its list of tool-call requests matters there. -/
structure GMsg where
  tool_calls : List (List Char)

/-- The two targets of the conditional edge out of the `chatbot` node. -/
inductive RouteTarget where
  | endRoute : RouteTarget
  | toolsRoute : RouteTarget

/-- The `router` of `ScoutAgent._build_graph` (scout/graph.py lines
80-84): inspect the last message; `END` when it carries no tool calls,
`"tools"` otherwise. `none` models the `IndexError` on an empty history,
which the graph never produces. -/
def router (msgs : List GMsg) : Option RouteTarget :=
  match msgs.getLast? with
  | none => none
  | some m =>
      if m.tool_calls.isEmpty then some RouteTarget.endRoute
      else some RouteTarget.toolsRoute

/-- The nodes of the graph built by `ScoutAgent._build_graph`
(scout/graph.py lines 86-95): `START`, the `chatbot` node (Generating),
the `tools` node (Invoking), and `END` (Done). -/
inductive GNode where
  | start : GNode
  | chatbot : GNode
  | tools : GNode
  | finish : GNode

/-- The edge structure of `ScoutAgent._build_graph` (scout/graph.py lines
91-93): `START → chatbot`, a conditional edge from `chatbot` through
`router` to `tools` or `END`, and `tools → chatbot`. `none` means no
outgoing edge (the terminal node, or a router failure). -/
def nextNode (msgs : List GMsg) : GNode → Option GNode
  | GNode.start => some GNode.chatbot
  | GNode.chatbot =>
      (router msgs).map fun r =>
        match r with
        | RouteTarget.endRoute => GNode.finish
        | RouteTarget.toolsRoute => GNode.tools
  | GNode.tools => some GNode.chatbot
  | GNode.finish => none

/-- The outcome of executing one SQL query against the engine: the
markdown rendering `df.to_markdown(index=False)` of the result frame, or
the text of the exception the execution raised (including timeouts, which
surface as exceptions). The connection, pandas and SQLAlchemy are external
collaborators, so this is an oracle argument. -/
def QueryOracle : Type := List Char → Except (List Char) (List Char)

/-- `DatalysisSession.query_database`
(scout/my_mcp/local_servers/datalysis_mcp.py lines 56-75): an error string
when no engine is configured; otherwise the markdown table on success and
`"Error executing query: " ++ e` when execution raises `e` — the failure
is returned as the result payload, never propagated. -/
def query_database (engineReady : Bool) (runQuery : QueryOracle)
    (q : List Char) : List Char :=
  if !engineReady then
    strL "Error: Database connection not available. Please check SUPABASE_URL environment variable."
  else
    match runQuery q with
    | Except.ok md => md
    | Except.error e => strL "Error executing query: " ++ e

/-- The outcome of `exec`-ing the assembled visualization code
(scout/my_mcp/local_servers/datalysis_mcp.py lines 123-136): either the
execution raised with message `e`, or it completed, in which case the
generated code wrote `output/name.json` exactly when it produced a `fig`
variable (`figProduced`), a file of that name may independently remain
from an earlier call (`staleExists`), and `stderrOut` is the captured
standard error. -/
inductive ExecOutcome where
  | raised (e : List Char) : ExecOutcome
  | completed (figProduced staleExists : Bool) (stderrOut : List Char) : ExecOutcome

/-- The success message of `generate_visualization`
(scout/my_mcp/local_servers/datalysis_mcp.py line 130). -/
def vizSuccessMsg (name : List Char) : List Char :=
  strL "Visualization '" ++ name ++
    strL "' created successfully and saved to output/" ++ name ++ strL ".json"

/-- `DatalysisSession.generate_visualization`
(scout/my_mcp/local_servers/datalysis_mcp.py lines 77-136): an error
string when no engine is configured; an error string carrying the raised
exception when `exec` raises; otherwise success is reported exactly when
`os.path.exists("output/name.json")` holds after execution — the file is
there when the code produced a figure or a stale file of the same name
already existed — and otherwise an error string carrying the captured
stderr is returned. -/
def generate_visualization (engineReady : Bool) (name : List Char)
    (outcome : ExecOutcome) : List Char :=
  if !engineReady then
    strL "Error: Database connection not available. Please check SUPABASE_URL environment variable."
  else
    match outcome with
    | ExecOutcome.raised e => strL "Error executing visualization code: " ++ e
    | ExecOutcome.completed figProduced staleExists stderrOut =>
        if figProduced || staleExists then vizSuccessMsg name
        else strL "Error: Failed to generate visualization.\nError details: " ++ stderrOut

/-- Modelled from the spec: the Tool Dispatch Boundary. The dispatching
code is LangGraph's `ToolNode` (scout/graph.py line 89), which is not part
of this repository; section 4.4 of the design specifies it as locating the
named tool in the externally supplied catalog and invoking it, and, for an
unknown tool name, returning a result payload carrying the failure
description rather than propagating an error. -/
def dispatchTool (catalog : List (List Char × (List Char → List Char)))
    (name args : List Char) : List Char :=
  match catalog.find? (fun t => t.1 == name) with
  | some t => t.2 args
  | none => strL "Error: tool '" ++ name ++ strL "' is not registered"

/-- Modelled from the spec: the Session Store. The store is LangGraph's
`MemorySaver` keyed by the `thread_id` of the graph config
(scout/graph.py line 95, api_server.py lines 159-166), which is not part
of this repository; section 4.5 of the design specifies `append` as
atomic, order-preserving and keyed by thread identifier. The store is the
append-only log of (thread identifier, message) pairs. -/
def storeAppend (s : List (List Char × GMsg)) (tid : List Char) (m : GMsg) :
    List (List Char × GMsg) :=
  s ++ [(tid, m)]

/-- Modelled from the spec: `load(thread_id)` returns the messages
appended under that identifier, in append order (section 4.5). -/
def storeLoad (s : List (List Char × GMsg)) (tid : List Char) : List GMsg :=
  (s.filter (fun e => e.1 == tid)).map (fun e => e.2)

/-- Replay a sequence of appends against the empty store. -/
def storeBuild (ops : List (List Char × GMsg)) : List (List Char × GMsg) :=
  ops.foldl (fun s op => storeAppend s op.1 op.2) []

/-- Fuel-indexed worker for `countOcc`, mirroring the scan of
`pyReplaceEmptyAux` so that it counts exactly the occurrences that
`str.replace` removes. -/
def countOccAux (pat : List Char) : Nat → List Char → Nat
  | 0, _ => 0
  | _ + 1, [] => 0
  | fuel + 1, c :: cs =>
      if pat ≠ [] ∧ pat.isPrefixOf (c :: cs) then
        1 + countOccAux pat fuel ((c :: cs).drop pat.length)
      else
        countOccAux pat fuel cs

/-- Number of non-overlapping occurrences of `pat` in `s`, scanning left
to right — the occurrences Python `s.replace(pat, "")` removes. -/
def countOcc (s pat : List Char) : Nat :=
  countOccAux pat s.length s

/-- A candidate substring qualifies for the inline rule when it parses as
JSON to a dict with `data` and `layout` keys. -/
def inlineQualifies (m : List Char) : Bool :=
  match jsonLoads m with
  | some parsed => vizDict parsed
  | none => false

/-- A buffer that is exactly a data/layout JSON object and at the same
time contains a nested data/layout object under a third key, so that both
inline detection rules are applicable with different results. -/
def bufVerbatimAndEmbedded : List Char :=
  strL "\x7b\"data\": [0], \"layout\": \x7b\x7d, \"x\": \x7b\"data\": [1], \"layout\": \x7b\x7d\x7d\x7d"

/-- A buffer that consists exactly of `\x7b"data": [...], "layout": \x7b\x7d\x7d`
with no other characters, whose data array contains a nested data/layout
object. -/
def bufNestedViz : List Char :=
  strL "\x7b\"data\": [[1], \x7b\"data\": [2], \"layout\": \x7b\x7d\x7d], \"layout\": \x7b\x7d\x7d"

/-- The inline span occurring twice in `bufDupSpans`. -/
def spanDupViz : List Char :=
  strL "\x7b\"data\": [1], \"layout\": \x7b\x7d\x7d"

/-- A buffer containing the same inline visualization span twice, with
surrounding text. -/
def bufDupSpans : List Char :=
  strL "A \x7b\"data\": [1], \"layout\": \x7b\x7d\x7d B \x7b\"data\": [1], \"layout\": \x7b\x7d\x7d C"

/-- Concatenation of the fragments of the `Text` events of an event
sequence, ignoring all other events. -/
def textOfEvents (evs : List StreamEvent) : List Char :=
  evs.flatMap fun e =>
    match e with
    | StreamEvent.text s => s
    | _ => []

/-- Stated from the specification, for comparison with the classifier:
the text extracted from one increment — nothing for a non-AI or tool-call
increment; string content taken whole; block-list content contributing
only blocks tagged text; other content contributing its raw textual
representation (section 4.2's degradation rule). -/
def chunkTextSpec (c : Chunk) : List Char :=
  if !c.ai then []
  else
    match c.toolCallChunks with
    | _ :: _ => []
    | [] =>
        match c.content with
        | PyContent.str s => s
        | PyContent.blocks bs =>
            bs.flatMap fun b =>
              match b with
              | CBlock.textBlock t => t
              | CBlock.otherBlock => []
        | PyContent.other r => r

/-- One tool call of a tool-call batch as the provider streams it: the
chunk bearing the call's name followed by the chunks bearing its argument
fragments. -/
structure TCall where
  name : List Char
  argFrags : List (List Char)

/-- The increment that announces a tool call. -/
def nameChunk (n : List Char) : Chunk :=
  { ai := true, responseMetadata := [], toolCallChunks := [⟨n, []⟩],
    content := PyContent.str [] }

/-- An increment bearing one argument fragment of the current call. -/
def argChunk (a : List Char) : Chunk :=
  { ai := true, responseMetadata := [], toolCallChunks := [⟨[], a⟩],
    content := PyContent.str [] }

/-- The increments the provider streams for one tool call: its name
first, then its argument fragments. -/
def renderCall (tc : TCall) : List Chunk :=
  nameChunk tc.name :: tc.argFrags.map argChunk

/-- The increments of a whole tool-call batch, one call after another. -/
def renderBatch (batch : List TCall) : List Chunk :=
  batch.flatMap renderCall

/-- A list is a boolean prefix of itself followed by anything. -/
theorem isPrefixOf_append_self (l t : List Char) :
    l.isPrefixOf (l ++ t) = true := by
  induction l with
  | nil => simp [List.isPrefixOf]
  | cons a r ih => simp [List.isPrefixOf, ih]

/-- Heads differ, so the lists differ. -/
theorem cons_ne_cons_of_head_ne (a b : Char) (xs ys : List Char) (h : a ≠ b) :
    (a :: xs) ≠ (b :: ys) := by
  intro he
  injection he with h1 _
  exact h h1

/-- C8. For every input buffer, the Artifact Extractor never raises (it is
a total function here) and, whenever it reports no payload — that is,
whenever no detection rule matched, every failing candidate having been
skipped — the buffer is returned as plain text unchanged. -/
theorem c8_no_match_passthrough (fs : FileSys) (content : List Char)
    (h : (detect_visualization_data fs content).2 = none) :
    detect_visualization_data fs content = (content, none) := by
  unfold detect_visualization_data at h ⊢
  cases hf : fileRuleStep fs content with
  | some v =>
      obtain ⟨c, p⟩ := v
      rw [hf] at h
      simp at h
  | none =>
      rw [hf] at h
      cases hi : inlineRuleStep content with
      | some v =>
          obtain ⟨c, p⟩ := v
          rw [hi] at h
          simp at h
      | none =>
          rw [hi] at h
          cases hv : verbatimRuleStep content with
          | some v =>
              obtain ⟨c, p⟩ := v
              rw [hv] at h
              simp at h
          | none => rfl

/-- Witness for C8 at a concrete buffer with JSON-like garbage that fails
to parse: the buffer passes through unchanged. -/
theorem c8_witness :
    (detect_visualization_data fsEmpty (strL "see \x7b\"data\": [1, \"layout\": \x7b\x7d\x7d oops")).2 = none ∧
    detect_visualization_data fsEmpty (strL "see \x7b\"data\": [1, \"layout\": \x7b\x7d\x7d oops") =
      (strL "see \x7b\"data\": [1, \"layout\": \x7b\x7d\x7d oops", none) :=
  ⟨rfl, c8_no_match_passthrough fsEmpty _ rfl⟩

/-- C5. In the Routing step, a just-produced assistant message with no
tool-call requests sends the turn to the terminal node, and one with tool
calls sends it to the tools node, whose only outgoing edge returns to the
chatbot (Generating) node. -/
theorem c5_routing (msgs : List GMsg) (m : GMsg) (h : msgs.getLast? = some m) :
    (m.tool_calls = [] → nextNode msgs GNode.chatbot = some GNode.finish) ∧
    (m.tool_calls ≠ [] →
      nextNode msgs GNode.chatbot = some GNode.tools ∧
      ∀ msgs2, nextNode msgs2 GNode.tools = some GNode.chatbot) := by
  constructor
  · intro he
    simp [nextNode, router, h, he]
  · intro hne
    refine ⟨?_, fun msgs2 => rfl⟩
    have : m.tool_calls.isEmpty = false := by
      cases hm : m.tool_calls with
      | nil => exact absurd hm hne
      | cons a l => rfl
    simp [nextNode, router, h, this]

/-- Witness for C5: a history ending in a tool-call message routes to the
tools node and back to the chatbot; one ending without tool calls routes
to the terminal node. -/
theorem c5_witness :
    nextNode [GMsg.mk [strL "datalysis_query_db"]] GNode.chatbot = some GNode.tools ∧
    nextNode [] GNode.tools = some GNode.chatbot ∧
    nextNode [GMsg.mk []] GNode.chatbot = some GNode.finish := by
  have h1 := c5_routing [GMsg.mk [strL "datalysis_query_db"]] (GMsg.mk [strL "datalysis_query_db"]) rfl
  have h2 := c5_routing [GMsg.mk []] (GMsg.mk []) rfl
  have h3 := h1.2 (by simp)
  exact ⟨h3.1, h3.2 [], h2.1 rfl⟩

/-- C6. A failing tool invocation is answered with a result payload
carrying the failure description instead of a propagated error: an
unregistered tool name yields a failure payload from the dispatch
boundary, a database query whose execution raises `e` returns the string
`Error executing query: e`, and the tools node always proceeds back to
the chatbot (Generating) node rather than aborting. -/
theorem c6_fail_soft (catalog : List (List Char × (List Char → List Char)))
    (name args : List Char) (runQuery : QueryOracle) (q e : List Char)
    (msgs : List GMsg)
    (hunknown : catalog.find? (fun t => t.1 == name) = none)
    (hraise : runQuery q = Except.error e) :
    dispatchTool catalog name args =
      strL "Error: tool '" ++ name ++ strL "' is not registered" ∧
    query_database true runQuery q = strL "Error executing query: " ++ e ∧
    nextNode msgs GNode.tools = some GNode.chatbot := by
  refine ⟨?_, ?_, rfl⟩
  · unfold dispatchTool
    rw [hunknown]
  · unfold query_database
    rw [hraise]
    rfl

/-- Witness for C6: an empty catalog and a query execution that raises. -/
theorem c6_witness :
    dispatchTool [] (strL "nosuch_tool") [] =
      strL "Error: tool '" ++ strL "nosuch_tool" ++ strL "' is not registered" ∧
    query_database true (fun _ => Except.error (strL "connection timed out")) (strL "SELECT 1") =
      strL "Error executing query: " ++ strL "connection timed out" ∧
    nextNode [] GNode.tools = some GNode.chatbot :=
  c6_fail_soft [] (strL "nosuch_tool") [] (fun _ => Except.error (strL "connection timed out"))
    (strL "SELECT 1") (strL "connection timed out") [] rfl rfl

/-- Replaying appends against the empty store yields the append log
itself. -/
theorem storeBuild_eq (ops : List (List Char × GMsg)) : storeBuild ops = ops := by
  have general : ∀ (l acc : List (List Char × GMsg)),
      l.foldl (fun s op => storeAppend s op.1 op.2) acc = acc ++ l := by
    intro l
    induction l with
    | nil => intro acc; simp
    | cons a t ih =>
        intro acc
        rw [List.foldl_cons, ih]
        simp [storeAppend]
  simpa using general ops []

/-- C9. Loading thread A after any interleaving of appends to threads A
and B returns exactly the messages appended under A, in order, and none
appended under B. -/
theorem c9_thread_isolation (A B : List Char) (ops : List (List Char × GMsg))
    (_hne : A ≠ B) (_hops : ∀ op ∈ ops, op.1 = A ∨ op.1 = B) :
    storeLoad (storeBuild ops) A =
      (ops.filter (fun op => op.1 == A)).map (fun op => op.2) := by
  rw [storeBuild_eq]
  rfl

/-- Witness for C9 at a concrete interleaving of two threads. -/
theorem c9_witness :
    storeLoad (storeBuild
      [(strL "a", GMsg.mk []), (strL "b", GMsg.mk [strL "t"]),
       (strL "a", GMsg.mk [strL "u"]), (strL "b", GMsg.mk [])]) (strL "a") =
      [GMsg.mk [], GMsg.mk [strL "u"]] :=
  (c9_thread_isolation (strL "a") (strL "b")
    [(strL "a", GMsg.mk []), (strL "b", GMsg.mk [strL "t"]),
     (strL "a", GMsg.mk [strL "u"]), (strL "b", GMsg.mk [])]
    (by decide) (by decide)).trans rfl

/-- C10. When the generated visualization code raises no exception, the
tool reports success exactly when a file exists at `output/name.json`
after execution; the file is there either because the code produced a
figure or because a stale file of that name survived from an earlier call
— so a stale file yields a success report even when no figure was
produced — and when no file exists the tool returns an error description
that carries the captured stderr, instead of raising. -/
theorem c10_success_iff_file (name : List Char) (figProduced staleExists : Bool)
    (stderrOut : List Char) :
    (generate_visualization true name (ExecOutcome.completed figProduced staleExists stderrOut) =
        vizSuccessMsg name ↔ (figProduced || staleExists) = true) ∧
    (figProduced = false → staleExists = true →
      generate_visualization true name (ExecOutcome.completed figProduced staleExists stderrOut) =
        vizSuccessMsg name) ∧
    ((figProduced || staleExists) = false →
      generate_visualization true name (ExecOutcome.completed figProduced staleExists stderrOut) =
        strL "Error: Failed to generate visualization.\nError details: " ++ stderrOut ∧
      stderrOut.isSuffixOf
        (generate_visualization true name (ExecOutcome.completed figProduced staleExists stderrOut)) = true) := by
  have hgen : generate_visualization true name (ExecOutcome.completed figProduced staleExists stderrOut) =
      if (figProduced || staleExists) then vizSuccessMsg name
      else strL "Error: Failed to generate visualization.\nError details: " ++ stderrOut := rfl
  refine ⟨?_, ?_, ?_⟩
  · rw [hgen]
    cases h : (figProduced || staleExists) with
    | false =>
        constructor
        · intro he
          exact absurd he (cons_ne_cons_of_head_ne 'E' 'V' _ _ (by decide))
        · intro hft
          exact absurd hft (by decide)
    | true => simp
  · intro h1 h2
    rw [hgen, h1, h2]
    rfl
  · intro h
    rw [hgen, h]
    refine ⟨rfl, ?_⟩
    show (stderrOut.reverse.isPrefixOf
      (strL "Error: Failed to generate visualization.\nError details: " ++ stderrOut).reverse) = true
    rw [List.reverse_append]
    exact isPrefixOf_append_self _ _

/-- Witness for C10: a stale file with no figure produced still reports
success; with no file at all the stderr text is embedded in the error. -/
theorem c10_witness :
    generate_visualization true (strL "sales_q1") (ExecOutcome.completed false true (strL "")) =
      vizSuccessMsg (strL "sales_q1") ∧
    generate_visualization true (strL "sales_q1") (ExecOutcome.completed false false (strL "NameError: name 'px' is not defined")) =
      strL "Error: Failed to generate visualization.\nError details: " ++ strL "NameError: name 'px' is not defined" :=
  ⟨(c10_success_iff_file (strL "sales_q1") false true (strL "")).2.1 rfl rfl,
   ((c10_success_iff_file (strL "sales_q1") false false (strL "NameError: name 'px' is not defined")).2.2 rfl).1⟩

/-- A match of a pattern headed by a literal consumes at least that
literal. -/
theorem matchItems_lit_le (cs : List Char) (rest : List RItem) (s : List Char)
    (n : Nat) (h : matchItems (RItem.lit cs :: rest) s = some n) :
    cs.length ≤ n := by
  unfold matchItems at h
  split at h
  · cases hm : matchItems rest (s.drop cs.length) with
    | none => rw [hm] at h; simp at h
    | some r =>
        rw [hm] at h
        simp at h
        omega
  · exact Option.noConfusion h

/-- A pattern headed by a nonempty literal never matches the empty
string. -/
theorem matchItems_lit_nil (cs : List Char) (rest : List RItem) (hcs : cs ≠ [])
    : matchItems (RItem.lit cs :: rest) [] = none := by
  unfold matchItems
  rw [if_neg]
  intro hp
  cases cs with
  | nil => exact hcs rfl
  | cons a l => exact Bool.noConfusion hp

/-- Members of the worker match list for a pattern headed by a nonempty
literal are nonempty strings. -/
theorem refindallAux_mem_ne_nil (cs : List Char) (rest : List RItem)
    (hcs : cs ≠ []) :
    ∀ (fuel : Nat) (s m : List Char),
      m ∈ refindallAux (RItem.lit cs :: rest) fuel s → m ≠ [] := by
  intro fuel
  induction fuel with
  | zero =>
      intro s m hm
      simp [refindallAux] at hm
  | succ f ih =>
      intro s m hm
      cases s with
      | nil =>
          rw [refindallAux, matchItems_lit_nil cs rest hcs] at hm
          simp at hm
      | cons c cs2 =>
          rw [refindallAux] at hm
          cases hmi : matchItems (RItem.lit cs :: rest) (c :: cs2) with
          | none =>
              rw [hmi] at hm
              exact ih cs2 m hm
          | some n =>
              cases n with
              | zero =>
                  have hle := matchItems_lit_le cs rest (c :: cs2) 0 hmi
                  cases cs with
                  | nil => exact absurd rfl hcs
                  | cons a l => simp at hle
              | succ k =>
                  rw [hmi] at hm
                  cases hm with
                  | head =>
                      simp
                  | tail _ hm2 =>
                      exact ih _ m hm2

/-- Members of the match list for a pattern headed by a nonempty literal
are nonempty strings. -/
theorem refindall_mem_ne_nil (cs : List Char) (rest : List RItem)
    (hcs : cs ≠ []) (s m : List Char)
    (hm : m ∈ refindall (RItem.lit cs :: rest) s) : m ≠ [] :=
  refindallAux_mem_ne_nil cs rest hcs (s.length + 1) s m hm

/-- What a successful file rule reports: the cleaned text is the buffer
with some matched path token removed by Python replace, then stripped. -/
theorem fileRuleStep_shape (fs : FileSys) (content c : List Char) (p : Json)
    (h : fileRuleStep fs content = some (c, p)) :
    ∃ fp ∈ refindall filePatternItems content,
      c = pyStrip (pyReplaceEmpty content fp) := by
  unfold fileRuleStep at h
  split at h
  · obtain ⟨fp, hmem, hfp⟩ := List.exists_of_findSome?_eq_some h
    refine ⟨fp, hmem, ?_⟩
    split at hfp
    · exact Option.noConfusion hfp
    · split at hfp
      · exact Option.noConfusion hfp
      · split at hfp
        · simp at hfp
          exact hfp.1.symm
        · exact Option.noConfusion hfp
  · exact Option.noConfusion h

/-- What a successful inline rule reports: some matched candidate parses
to the payload, and the cleaned text is the buffer with that candidate
removed by Python replace, then stripped. -/
theorem inlineRuleStep_shape (content c : List Char) (p : Json)
    (h : inlineRuleStep content = some (c, p)) :
    ∃ m ∈ refindall jsonPatternItems content,
      jsonLoads m = some p ∧ vizDict p = true ∧
      c = pyStrip (pyReplaceEmpty content m) := by
  unfold inlineRuleStep at h
  obtain ⟨m, hmem, hfm⟩ := List.exists_of_findSome?_eq_some h
  refine ⟨m, hmem, ?_⟩
  split at hfm
  · exact Option.noConfusion hfm
  · rename_i parsed hjl
    split at hfm
    · rename_i hviz
      simp at hfm
      obtain ⟨h1, h2⟩ := hfm
      subst h2
      exact ⟨hjl, hviz, h1.symm⟩
    · exact Option.noConfusion hfm

/-- What a successful verbatim rule reports: empty cleaned text and the
parse of the stripped buffer. -/
theorem verbatimRuleStep_shape (content c : List Char) (p : Json)
    (h : verbatimRuleStep content = some (c, p)) :
    c = [] ∧ jsonLoads (pyStrip content) = some p ∧ vizDict p = true := by
  unfold verbatimRuleStep at h
  split at h
  · split at h
    · exact Option.noConfusion h
    · rename_i parsed hjl
      split at h
      · rename_i hviz
        simp at h
        obtain ⟨h1, h2⟩ := h
        subst h2
        exact ⟨h1, hjl, hviz⟩
      · exact Option.noConfusion h
  · exact Option.noConfusion h

/-- C1 (amended). The Artifact Extractor applies the file-reference rule
first, then the inline-embedded-substring rule, and only then the
inline-verbatim whole-buffer rule: whenever the file rule does not fire
and the embedded rule fires, its result is the one produced — even on
buffers where the verbatim rule could also fire. The two inline rules
coincide only when the matched substring spans the whole buffer. -/
theorem c1_embedded_before_verbatim (fs : FileSys) (content c : List Char)
    (p : Json) (hfile : fileRuleStep fs content = none)
    (hinline : inlineRuleStep content = some (c, p)) :
    detect_visualization_data fs content = (c, some p) := by
  unfold detect_visualization_data
  rw [hfile, hinline]

/-- Counterexample to C1 as stated: on `bufVerbatimAndEmbedded` both
inline rules could fire — the verbatim rule would return the whole-buffer
payload with empty residual text — yet the extractor produces the
embedded rule's result: the nested payload, with nonempty residual
text. -/
theorem c1_counterexample :
    verbatimRuleStep bufVerbatimAndEmbedded =
      some ([], Json.obj
        [(strL "data", Json.arr [Json.num (strL "0")]),
         (strL "layout", Json.obj []),
         (strL "x", Json.obj
           [(strL "data", Json.arr [Json.num (strL "1")]),
            (strL "layout", Json.obj [])])]) ∧
    detect_visualization_data fsEmpty bufVerbatimAndEmbedded =
      (strL "\x7b\"data\": [0], \"layout\": \x7b\x7d, \"x\": \x7d",
       some (Json.obj
         [(strL "data", Json.arr [Json.num (strL "1")]),
          (strL "layout", Json.obj [])])) ∧
    (detect_visualization_data fsEmpty bufVerbatimAndEmbedded).1 ≠ [] :=
  ⟨rfl, rfl, by decide⟩

/-- Witness for the amended C1 at the buffer where the two inline rules
disagree. -/
theorem c1_witness :
    detect_visualization_data fsEmpty bufVerbatimAndEmbedded =
      (strL "\x7b\"data\": [0], \"layout\": \x7b\x7d, \"x\": \x7d",
       some (Json.obj
         [(strL "data", Json.arr [Json.num (strL "1")]),
          (strL "layout", Json.obj [])])) :=
  c1_embedded_before_verbatim fsEmpty bufVerbatimAndEmbedded
    (strL "\x7b\"data\": [0], \"layout\": \x7b\x7d, \"x\": \x7d")
    (Json.obj
      [(strL "data", Json.arr [Json.num (strL "1")]),
       (strL "layout", Json.obj [])])
    rfl rfl

/-- A list is a prefix of itself, in the boolean sense. -/
theorem isPrefixOf_self (l : List Char) : l.isPrefixOf l = true := by
  induction l with
  | nil => rfl
  | cons a t ih => simp [List.isPrefixOf, ih]

/-- Replacing a nonempty string inside itself erases it completely. -/
theorem pyReplaceEmpty_self (s : List Char) (hs : s ≠ []) :
    pyReplaceEmpty s s = [] := by
  cases s with
  | nil => exact absurd rfl hs
  | cons c cs =>
      show pyReplaceEmptyAux (c :: cs) (cs.length + 1) (c :: cs) = []
      rw [pyReplaceEmptyAux]
      rw [if_pos ⟨by simp, isPrefixOf_self (c :: cs)⟩]
      rw [List.drop_length]
      cases hcl : cs.length with
      | zero => rfl
      | succ k => rfl

/-- C2 (amended). When the Artifact Extractor emits an artifact for the
accumulated buffer, the caller-visible residual text is the buffer with
every non-overlapping occurrence of the matched source span removed
(Python replace semantics — exactly one removal when the span occurs
once), or empty for a whole-buffer match; and no artifact is emitted
twice for the same occurrence: the server loop resets the accumulated
buffer to empty right after the emission, and the extractor emits nothing
on an empty buffer. -/
theorem c2_span_removal_amended (fs : FileSys) (acc chunk r : List Char)
    (j : Json)
    (h : detect_visualization_data fs (acc ++ chunk) = (r, some j)) :
    (accumulateStep fs acc chunk).2 = [] ∧
    (detect_visualization_data fs []).2 = none ∧
    (r = [] ∨ ∃ span, span ≠ [] ∧
      r = pyStrip (pyReplaceEmpty (acc ++ chunk) span)) := by
  refine ⟨?_, rfl, ?_⟩
  · simp [accumulateStep, h]
  · unfold detect_visualization_data at h
    cases hf : fileRuleStep fs (acc ++ chunk) with
    | some v =>
        obtain ⟨c, p⟩ := v
        rw [hf] at h
        simp at h
        obtain ⟨fp, hmem, hc⟩ := fileRuleStep_shape fs (acc ++ chunk) c p hf
        right
        refine ⟨fp, ?_, ?_⟩
        · exact refindall_mem_ne_nil (strL "output/") _ (by decide) _ fp hmem
        · rw [← h.1]
          exact hc
    | none =>
        rw [hf] at h
        cases hi : inlineRuleStep (acc ++ chunk) with
        | some v =>
            obtain ⟨c, p⟩ := v
            rw [hi] at h
            simp at h
            obtain ⟨m, hmem, _, _, hc⟩ := inlineRuleStep_shape (acc ++ chunk) c p hi
            right
            refine ⟨m, ?_, ?_⟩
            · exact refindall_mem_ne_nil (strL "\x7b") _ (by decide) _ m hmem
            · rw [← h.1]
              exact hc
        | none =>
            rw [hi] at h
            cases hv : verbatimRuleStep (acc ++ chunk) with
            | some v =>
                obtain ⟨c, p⟩ := v
                rw [hv] at h
                simp at h
                obtain ⟨hc, _, _⟩ := verbatimRuleStep_shape (acc ++ chunk) c p hv
                left
                rw [← h.1]
                exact hc
            | none =>
                rw [hv] at h
                simp at h

/-- Counterexample to C2 as stated: the buffer `bufDupSpans` contains the
same source span twice; one artifact is emitted, and the residual text
has both occurrences removed — the span no longer occurs at all — rather
than exactly one occurrence removed with surrounding text preserved. -/
theorem c2_counterexample :
    countOcc bufDupSpans spanDupViz = 2 ∧
    detect_visualization_data fsEmpty bufDupSpans =
      (strL "A  B  C",
       some (Json.obj [(strL "data", Json.arr [Json.num (strL "1")]),
                       (strL "layout", Json.obj [])])) ∧
    pyContains spanDupViz (detect_visualization_data fsEmpty bufDupSpans).1 = false :=
  ⟨by decide, rfl, by decide⟩

/-- Witness for the amended C2 at the duplicated-span buffer. -/
theorem c2_witness :
    (accumulateStep fsEmpty [] bufDupSpans).2 = [] ∧
    (detect_visualization_data fsEmpty []).2 = none ∧
    ((strL "A  B  C" : List Char) = [] ∨ ∃ span, span ≠ [] ∧
      strL "A  B  C" = pyStrip (pyReplaceEmpty ([] ++ bufDupSpans) span)) :=
  c2_span_removal_amended fsEmpty [] bufDupSpans (strL "A  B  C")
    (Json.obj [(strL "data", Json.arr [Json.num (strL "1")]),
               (strL "layout", Json.obj [])])
    rfl

/-- C7 (amended). A buffer that consists exactly of a JSON object
`\x7b"data": [...], "layout": \x7b...\x7d\x7d` with no other characters
yields exactly one Artifact event carrying the parsed whole-buffer
payload and an empty residual text, provided every inline-pattern
candidate that parses to a data/layout object is the whole buffer itself;
when a proper substring qualifies (for instance a nested data/layout
object inside the data array), that substring's payload is extracted
instead and the residual is nonempty. -/
theorem c7_roundtrip_amended (fs : FileSys) (content : List Char) (p : Json)
    (hfile : fileRuleStep fs content = none)
    (hcand : ∀ m ∈ refindall jsonPatternItems content,
      inlineQualifies m = true → m = content)
    (hstrip : pyStrip content = content)
    (hpre : (strL "\x7b\"data\":").isPrefixOf content = true)
    (hlay : pyContains (strL "\"layout\":") content = true)
    (hparse : jsonLoads content = some p)
    (hviz : vizDict p = true) :
    detect_visualization_data fs content = ([], some p) := by
  have hcontent_ne : content ≠ [] := by
    intro he
    rw [he] at hpre
    exact absurd hpre (by decide)
  unfold detect_visualization_data
  rw [hfile]
  cases hi : inlineRuleStep content with
  | some v =>
      obtain ⟨c, q⟩ := v
      obtain ⟨m, hmem, hjl, hqviz, hc⟩ := inlineRuleStep_shape content c q hi
      have hq : inlineQualifies m = true := by
        unfold inlineQualifies
        rw [hjl]
        exact hqviz
      have hmeq : m = content := hcand m hmem hq
      subst hmeq
      have hqp : q = p := by
        rw [hparse] at hjl
        exact (Option.some.inj hjl).symm
      have hc0 : c = [] := by
        rw [hc, pyReplaceEmpty_self m hcontent_ne]
        rfl
      show (c, some q) = ([], some p)
      rw [hc0, hqp]
  | none =>
      have hverb : verbatimRuleStep content = some ([], p) := by
        unfold verbatimRuleStep
        rw [hstrip, hpre, hlay, hparse]
        simp [hviz]
      rw [hverb]

/-- Counterexample to C7 as stated: `bufNestedViz` consists exactly of a
JSON object with a `data` array and a `layout` object and no other
characters, yet the extractor emits the nested object found inside the
data array as the Artifact and leaves a nonempty residual text. -/
theorem c7_counterexample :
    jsonLoads bufNestedViz =
      some (Json.obj
        [(strL "data", Json.arr
            [Json.arr [Json.num (strL "1")],
             Json.obj [(strL "data", Json.arr [Json.num (strL "2")]),
                       (strL "layout", Json.obj [])]]),
         (strL "layout", Json.obj [])]) ∧
    detect_visualization_data fsEmpty bufNestedViz =
      (strL "\x7b\"data\": [[1], ], \"layout\": \x7b\x7d\x7d",
       some (Json.obj [(strL "data", Json.arr [Json.num (strL "2")]),
                       (strL "layout", Json.obj [])])) ∧
    (detect_visualization_data fsEmpty bufNestedViz).1 ≠ [] :=
  ⟨rfl, rfl, by decide⟩

/-- Witness for the amended C7 at a plain round-trip buffer whose only
qualifying inline candidate is the whole buffer. -/
theorem c7_witness :
    detect_visualization_data fsEmpty (strL "\x7b\"data\": [1], \"layout\": \x7b\x7d\x7d") =
      ([], some (Json.obj [(strL "data", Json.arr [Json.num (strL "1")]),
                           (strL "layout", Json.obj [])])) :=
  c7_roundtrip_amended fsEmpty
    (strL "\x7b\"data\": [1], \"layout\": \x7b\x7d\x7d")
    (Json.obj [(strL "data", Json.arr [Json.num (strL "1")]),
               (strL "layout", Json.obj [])])
    rfl (by decide) rfl rfl rfl rfl rfl

/-- Concatenated text distributes over event concatenation. -/
theorem textOfEvents_append (a b : List StreamEvent) :
    textOfEvents (a ++ b) = textOfEvents a ++ textOfEvents b := by
  simp [textOfEvents]

/-- The text of the events emitted for a block list is the concatenated
text of its blocks tagged text. -/
theorem textOfEvents_blocks (bs : List CBlock) :
    textOfEvents (contentEvents (PyContent.blocks bs)) =
      bs.flatMap (fun b =>
        match b with
        | CBlock.textBlock t => t
        | CBlock.otherBlock => []) := by
  induction bs with
  | nil => rfl
  | cons b rest ih =>
      cases b with
      | textBlock t =>
          show t ++ textOfEvents (contentEvents (PyContent.blocks rest)) =
            t ++ rest.flatMap _
          exact congrArg (fun l => t ++ l) ih
      | otherBlock =>
          show textOfEvents (contentEvents (PyContent.blocks rest)) =
            rest.flatMap _
          exact ih

/-- The text carried by the events of one increment is exactly the text
the specification extracts from that increment. -/
theorem textOfEvents_classifyChunk (c : Chunk) :
    textOfEvents (classifyChunk c) = chunkTextSpec c := by
  cases hai : c.ai with
  | false => simp [classifyChunk, chunkTextSpec, hai, textOfEvents]
  | true =>
      simp only [classifyChunk, chunkTextSpec, hai, Bool.not_true,
        Bool.false_eq_true, if_false]
      rw [textOfEvents_append]
      have hbnd : textOfEvents
          (if (!c.responseMetadata.isEmpty &&
              (dictGetD c.responseMetadata (strL "finish_reason") [] == strL "tool_calls")) = true
           then [StreamEvent.turnBoundary] else []) = [] := by
        split <;> rfl
      rw [hbnd, List.nil_append]
      cases c.toolCallChunks with
      | nil =>
          cases c.content with
          | str s => simp [textOfEvents, contentEvents]
          | blocks bs => exact textOfEvents_blocks bs
          | other r => simp [textOfEvents, contentEvents]
      | cons tc rest =>
          rw [textOfEvents_append]
          have h1 : textOfEvents
              (if (!tc.name.isEmpty) = true
               then [StreamEvent.toolCallStart tc.name] else []) = [] := by
            split <;> rfl
          have h2 : textOfEvents
              (if (!tc.args.isEmpty) = true
               then [StreamEvent.toolCallArg tc.args] else []) = [] := by
            split <;> rfl
          rw [h1, h2]
          rfl

/-- C3. For every increment sequence, the concatenation of the emitted
Text fragments (ignoring tool-call and boundary events) equals, in order,
the concatenation of the text extracted from the text-bearing increments:
string content taken whole, block-list content contributing only blocks
tagged text, and unrecognized content degrading to its raw textual
representation. -/
theorem c3_text_preservation (chunks : List Chunk) :
    textOfEvents (stream_graph_response chunks) =
      chunks.flatMap chunkTextSpec := by
  induction chunks with
  | nil => rfl
  | cons c rest ih =>
      simp only [stream_graph_response, List.flatMap_cons] at ih ⊢
      rw [textOfEvents_append, textOfEvents_classifyChunk, ih]

/-- The classifier distributes over concatenation of increment
sequences. -/
theorem stream_graph_response_append (a b : List Chunk) :
    stream_graph_response (a ++ b) =
      stream_graph_response a ++ stream_graph_response b := by
  simp [stream_graph_response]

/-- Argument-fragment increments classify to exactly their argument
events, in order. -/
theorem argChunks_events : ∀ (frags : List (List Char)),
    (∀ f ∈ frags, f ≠ []) →
    stream_graph_response (frags.map argChunk) =
      frags.map StreamEvent.toolCallArg := by
  intro frags
  induction frags with
  | nil => intro _; rfl
  | cons f rest ih =>
      intro h
      have hf : f ≠ [] := h f (List.mem_cons_self _ _)
      have hrest : ∀ g ∈ rest, g ≠ [] := fun g hg => h g (List.mem_cons_of_mem _ hg)
      have hcf : classifyChunk (argChunk f) = [StreamEvent.toolCallArg f] := by
        cases hfe : f with
        | nil => exact absurd hfe hf
        | cons a l => rfl
      simp only [List.map_cons, stream_graph_response, List.flatMap_cons]
      rw [hcf]
      simp only [stream_graph_response] at ih
      rw [ih hrest]
      rfl

/-- C4. For every tool-call batch streamed through the classifier — each
call arriving as its name-bearing increment followed by its argument
fragments — the event sequence is exactly, per call in order: one
`ToolCallStart(name)`, then one `ToolCallArg` per argument fragment. In
particular the start event of a call is emitted exactly once, before all
of its argument events, and no two calls' argument events interleave. -/
theorem c4_tool_call_shape : ∀ (batch : List TCall),
    (∀ tc ∈ batch, tc.name ≠ [] ∧ ∀ f ∈ tc.argFrags, f ≠ []) →
    stream_graph_response (renderBatch batch) =
      batch.flatMap (fun tc =>
        StreamEvent.toolCallStart tc.name ::
          tc.argFrags.map StreamEvent.toolCallArg) := by
  intro batch
  induction batch with
  | nil => intro _; rfl
  | cons tc rest ih =>
      intro h
      have htc := h tc (List.mem_cons_self _ _)
      have hrest : ∀ tc2 ∈ rest, tc2.name ≠ [] ∧ ∀ f ∈ tc2.argFrags, f ≠ [] :=
        fun tc2 h2 => h tc2 (List.mem_cons_of_mem _ h2)
      have hn : classifyChunk (nameChunk tc.name) =
          [StreamEvent.toolCallStart tc.name] := by
        cases hne : tc.name with
        | nil => exact absurd hne htc.1
        | cons a l => rfl
      simp only [renderBatch, List.flatMap_cons]
      rw [show renderCall tc = [nameChunk tc.name] ++ tc.argFrags.map argChunk from rfl]
      rw [List.append_assoc, stream_graph_response_append]
      have hone : stream_graph_response [nameChunk tc.name] =
          [StreamEvent.toolCallStart tc.name] := by
        show classifyChunk (nameChunk tc.name) ++ [] = _
        rw [List.append_nil, hn]
      rw [hone, stream_graph_response_append, argChunks_events _ htc.2]
      simp only [renderBatch] at ih
      rw [ih hrest]
      rfl

/-- Witness for C4 at a concrete two-call batch: one start per call,
arguments in order, no interleaving. -/
theorem c4_witness :
    stream_graph_response (renderBatch
      [⟨strL "datalysis_query_db", [strL "\"SELECT", strL " 1\""]⟩,
       ⟨strL "datalysis_generate_visualization", [strL "x"]⟩]) =
      [StreamEvent.toolCallStart (strL "datalysis_query_db"),
       StreamEvent.toolCallArg (strL "\"SELECT"),
       StreamEvent.toolCallArg (strL " 1\""),
       StreamEvent.toolCallStart (strL "datalysis_generate_visualization"),
       StreamEvent.toolCallArg (strL "x")] :=
  (c4_tool_call_shape
    [⟨strL "datalysis_query_db", [strL "\"SELECT", strL " 1\""]⟩,
     ⟨strL "datalysis_generate_visualization", [strL "x"]⟩]
    (by decide)).trans rfl
